import Mathlib

/-!
Verification development for the HF Download Suite core.

Shallow embeddings of the response cache (`core/api/cache.py`), the download
worker's retry loop (`core/download/worker.py`), the download manager and the
task store (`core/download/manager.py`, `core/database.py`), and the resume
sidecar writer, together with theorems settling the specification claims
against them.  Time is modelled discretely (seconds as `Nat`), Python `None`
is a distinguished value constructor, and file-system effects are modelled as
explicit operation traces.
-/

namespace HFSuite

namespace Cache

/-- A Python/JSON value as stored and returned by the cache.  `pnone` models
Python `None` (JSON `null`), which `APICache.get` also returns on a miss or
on an expired entry. -/
inductive PyVal where
  | pnone
  | pbool (b : Bool)
  | pint (n : Int)
  | pstr (s : String)
  deriving DecidableEq, Repr

/-- One cache file: the dict `{value, created_at, expires_at}` that
`APICache.set` serializes (cache.py lines 119-123). -/
structure Entry where
  value : PyVal
  createdAt : Nat
  expiresAt : Nat
  deriving DecidableEq, Repr

/-- The cache directory: for each key, the entry file when present. -/
def CacheState := String → Option Entry

/-- Model of `APICache.set` (cache.py lines 104-133): writes
`{value, created_at = now, expires_at = now + ttl}` to the key's file. -/
def cacheSet (c : CacheState) (key : String) (v : PyVal) (ttl : Nat) (now : Nat) :
    CacheState :=
  fun k => if k = key then some ⟨v, now, now + ttl⟩ else c k

/-- Model of `APICache.get` (cache.py lines 68-102): a missing file is a miss
returning `None`; an entry with `now > expires_at` is unlinked and `None`
is returned; otherwise the stored `value` field is returned.  The result is
the returned value together with the cache state after the call. -/
def cacheGet (c : CacheState) (now : Nat) (key : String) : PyVal × CacheState :=
  match c key with
  | none => (PyVal.pnone, c)
  | some e =>
    if e.expiresAt < now then
      (PyVal.pnone, fun k => if k = key then none else c k)
    else
      (e.value, c)

/-- Result of one call to a `cached`-wrapped function: the returned value,
the cache state afterwards, and whether the wrapped function was invoked. -/
structure CallResult where
  value : PyVal
  cache : CacheState
  invoked : Bool

/-- The wrapper produced by the `cached` decorator (cache.py lines 209-249):
try the cache first and return a non-`None` cached value without calling the
function; otherwise call the function and store its result only when the
result is not `None`. -/
def cachedCall (c : CacheState) (now : Nat) (key : String) (ttl : Nat)
    (f : Unit → PyVal) : CallResult :=
  let g := cacheGet c now key
  if g.1 ≠ PyVal.pnone then
    ⟨g.1, g.2, false⟩
  else
    let r := f ()
    if r ≠ PyVal.pnone then
      ⟨r, cacheSet g.2 key r ttl now, true⟩
    else
      ⟨r, g.2, true⟩

lemma cacheSet_self (c : CacheState) (key : String) (v : PyVal) (ttl now : Nat) :
    cacheSet c key v ttl now key = some ⟨v, now, now + ttl⟩ := by
  simp [cacheSet]

/-- A key whose lookup yields `None` keeps yielding `None` from the
post-lookup state at every later time: the entry is either absent, expired
and deleted, or stores the value `None` itself. -/
lemma cacheGet_pnone_persist (c : CacheState) (now key : _) (t : Nat)
    (h : (cacheGet c now key).1 = PyVal.pnone) :
    (cacheGet (cacheGet c now key).2 t key).1 = PyVal.pnone := by
  unfold cacheGet at h ⊢
  cases hk : c key with
  | none => simp [hk] at h ⊢
  | some e =>
    by_cases hexp : e.expiresAt < now
    · simp [hk, if_pos hexp]
    · simp [hk, if_neg hexp] at h ⊢
      by_cases ht : e.expiresAt < t
      · simp [if_pos ht]
      · simp [if_neg ht, h]

/-- C6 (confirmed): after `APICache.set(k, v, ttl)` at time `t`, a `get(k)`
strictly before the ttl elapses returns `v`, and a `get(k)` strictly after
the ttl has elapsed returns `None` and leaves the entry absent. -/
theorem c6_cache_set_get_ttl (c : CacheState) (k : String) (v : PyVal)
    (ttl t tGet : Nat) (httl : 0 < ttl) :
    (tGet < t + ttl → (cacheGet (cacheSet c k v ttl t) tGet k).1 = v) ∧
    (t + ttl < tGet →
      (cacheGet (cacheSet c k v ttl t) tGet k).1 = PyVal.pnone ∧
      (cacheGet (cacheSet c k v ttl t) tGet k).2 k = none) := by
  have hk := cacheSet_self c k v ttl t
  constructor
  · intro h
    unfold cacheGet
    rw [hk]
    have : ¬ ((Entry.mk v t (t + ttl)).expiresAt < tGet) := by simp; omega
    simp [if_neg this]
  · intro h
    unfold cacheGet
    rw [hk]
    have : (Entry.mk v t (t + ttl)).expiresAt < tGet := by simpa using h
    simp [if_pos this]

/-- Closed witness for `c6_cache_set_get_ttl` at a concrete input. -/
theorem c6_cache_set_get_ttl_witness :
    (cacheGet (cacheSet (fun _ => none) "k" (PyVal.pint 7) 10 0) 5 "k").1 = PyVal.pint 7 ∧
    (cacheGet (cacheSet (fun _ => none) "k" (PyVal.pint 7) 10 0) 11 "k").1 = PyVal.pnone := by
  have h := c6_cache_set_get_ttl (fun _ => none) "k" (PyVal.pint 7) 10 0
  exact ⟨(h 5 (by decide)).1 (by decide), ((h 11 (by decide)).2 (by decide)).1⟩

/-- C10 (confirmed): a `None` value is never served from the cache.  After
`set(k, None, ttl)` every later `get(k)` returns `None` exactly as a miss
does; when the cache lookup yields `None`, the `cached` wrapper invokes the
wrapped function, and when the function returns `None` the wrapper stores
nothing, so a later call with the same key invokes the function again. -/
theorem c10_none_never_served (c : CacheState) (now key : _) (ttl : Nat)
    (f : Unit → PyVal) (hf : f () = PyVal.pnone)
    (hmiss : (cacheGet c now key).1 = PyVal.pnone) :
    (∀ (c' : CacheState) (k : String) (ttl' t tGet : Nat),
      (cacheGet (cacheSet c' k PyVal.pnone ttl' t) tGet k).1 = PyVal.pnone) ∧
    (cachedCall c now key ttl f).invoked = true ∧
    (cachedCall c now key ttl f).value = PyVal.pnone ∧
    (cachedCall c now key ttl f).cache = (cacheGet c now key).2 ∧
    (∀ tLater, (cachedCall (cachedCall c now key ttl f).cache tLater key ttl f).invoked = true) := by
  have hset : ∀ (c' : CacheState) (k : String) (ttl' t tGet : Nat),
      (cacheGet (cacheSet c' k PyVal.pnone ttl' t) tGet k).1 = PyVal.pnone := by
    intro c' k ttl' t tGet
    have hk := cacheSet_self c' k PyVal.pnone ttl' t
    unfold cacheGet
    rw [hk]
    by_cases h : (Entry.mk PyVal.pnone t (t + ttl')).expiresAt < tGet
    · simp [if_pos h]
    · simp [if_neg h]
  have hcall : cachedCall c now key ttl f = ⟨PyVal.pnone, (cacheGet c now key).2, true⟩ := by
    unfold cachedCall
    simp [hmiss, hf]
  refine ⟨hset, ?_, ?_, ?_, ?_⟩
  · rw [hcall]
  · rw [hcall]
  · rw [hcall]
  · intro tLater
    rw [hcall]
    have hmiss' : (cacheGet (cacheGet c now key).2 tLater key).1 = PyVal.pnone :=
      cacheGet_pnone_persist c now key tLater hmiss
    unfold cachedCall
    simp [hmiss', hf]

/-- Closed witness for `c10_none_never_served` at a concrete input. -/
theorem c10_none_never_served_witness :
    (cachedCall (fun _ => none) 0 "k" 5 (fun _ => PyVal.pnone)).invoked = true ∧
    (cacheGet (cacheSet (fun _ => none) "k" PyVal.pnone 5 0) 1 "k").1 = PyVal.pnone := by
  have h := c10_none_never_served (fun _ => none) 0 "k" 5 (fun _ => PyVal.pnone)
    rfl (by unfold cacheGet; rfl)
  exact ⟨h.2.1, h.1 (fun _ => none) "k" 5 0 1⟩

end Cache

namespace Worker

/-- Kind of error raised inside one download attempt of `DownloadWorker.run`
(worker.py lines 92-142).  The first three constructors are exactly the
exception classes named in the dedicated `except` clause at line 106;
`keyboardInterrupt` is the clause at line 112; `repoNotFound` models
`RepositoryNotFoundError` (exceptions.py lines 109-122), which is *not*
named in any dedicated clause and therefore falls to the generic
`except Exception` handler at line 117, as does `other`. -/
inductive WErr where
  | insufficientSpace
  | authError
  | gatedModel
  | keyboardInterrupt
  | repoNotFound
  | other (msg : String)
  deriving DecidableEq, Repr

/-- Whether the error is matched by the tuple
`(InsufficientSpaceError, AuthenticationError, GatedModelError)` of the
dedicated non-retryable `except` clause (worker.py line 106). -/
def caughtNonRetryable : WErr → Bool
  | .insufficientSpace => true
  | .authError => true
  | .gatedModel => true
  | _ => false

/-- Whether the error is matched by the `except KeyboardInterrupt` clause
(worker.py line 112). -/
def isKeyboardInterrupt : WErr → Bool
  | .keyboardInterrupt => true
  | _ => false

/-- Signal emitted by the worker on exit: `completed` (worker.py line 103)
or `failed` with the triggering error (lines 109 and 142). -/
inductive Emit where
  | completed
  | failed (e : WErr)
  deriving DecidableEq, Repr

/-- Observable outcome of one `DownloadWorker.run` execution: the emitted
signal (`none` = silent return, as on cancellation), the number of download
attempts actually performed, the total seconds slept in retry waits, and the
length of each fully completed backoff wait, in order. -/
structure RunResult where
  emit : Option Emit
  attemptsMade : Nat
  totalSleep : Nat
  gaps : List Nat
  deriving DecidableEq, Repr

/-- Result of the backoff wait loop: whether the cancel flag was observed,
how many one-second sleeps completed, and the next observation tick. -/
structure WaitResult where
  cancelled : Bool
  slept : Nat
  next : Nat
  deriving DecidableEq, Repr

/-- The backoff wait loop (worker.py lines 133-137):
`for _ in range(backoff_delay): if cancel: return; time.sleep(1)`.
Each iteration first reads the cancel flag at the current tick, then sleeps
one second.  `cancel` gives the flag's value at each successive observation
point. -/
def backoffWait (cancel : Nat → Bool) : Nat → Nat → WaitResult
  | t, 0 => ⟨false, 0, t⟩
  | t, k + 1 =>
    if cancel t then ⟨true, 0, t + 1⟩
    else
      let w := backoffWait cancel (t + 1) k
      ⟨w.cancelled, w.slept + 1, w.next⟩

/-- The retry loop of `DownloadWorker.run` (worker.py lines 92-142).
`attempts a` is the outcome of download attempt `a` (`none` = success);
`cancel` is the cancel flag at each observation tick; `fuel` counts the
remaining iterations of `for attempt in range(max_retries + 1)`.
Branches in source order: success emits `completed` and returns; the tuple
`(InsufficientSpaceError, AuthenticationError, GatedModelError)` emits
`failed` and returns without retrying; `KeyboardInterrupt` returns silently;
otherwise the generic handler checks the cancel flag (silent return if set),
then either waits `retry_delay * 2 ^ attempt` seconds — aborting silently if
cancel is observed during the wait — and retries, or, with no retries left,
emits `failed` with the last error. -/
def runAux (attempts : Nat → Option WErr) (cancel : Nat → Bool)
    (maxRetries retryDelay : Nat) : Nat → Nat → Nat → RunResult
  | 0, _, _ => ⟨none, 0, 0, []⟩
  | fuel + 1, a, t =>
    match attempts a with
    | none => ⟨some .completed, 1, 0, []⟩
    | some e =>
      if caughtNonRetryable e then ⟨some (.failed e), 1, 0, []⟩
      else if isKeyboardInterrupt e then ⟨none, 1, 0, []⟩
      else if cancel t then ⟨none, 1, 0, []⟩
      else if a < maxRetries then
        let w := backoffWait cancel (t + 1) (retryDelay * 2 ^ a)
        if w.cancelled then ⟨none, 1, w.slept, []⟩
        else
          let r := runAux attempts cancel maxRetries retryDelay fuel (a + 1) w.next
          ⟨r.emit, r.attemptsMade + 1, w.slept + r.totalSleep, w.slept :: r.gaps⟩
      else ⟨some (.failed e), 1, 0, []⟩

/-- One full execution of `DownloadWorker.run`: the loop runs for at most
`max_retries + 1` attempts starting at attempt 0, tick 0. -/
def run (attempts : Nat → Option WErr) (cancel : Nat → Bool)
    (maxRetries retryDelay : Nat) : RunResult :=
  runAux attempts cancel maxRetries retryDelay (maxRetries + 1) 0 0

/-- Effective retry budget (worker.py line 88):
`max_retries if auto_retry else 0`. -/
def effectiveMaxRetries (autoRetry : Bool) (maxRetries : Nat) : Nat :=
  if autoRetry then maxRetries else 0

lemma backoffWait_no_cancel (k t : Nat) :
    backoffWait (fun _ => false) t k = ⟨false, k, t + k⟩ := by
  induction k generalizing t with
  | zero => simp [backoffWait]
  | succ n ih =>
    simp only [backoffWait, Bool.false_eq_true, if_false, ih]
    simp
    omega

/-- If the cancel flag is monotone and set at some observation point of the
wait, the wait loop reports cancellation after at most `j` one-second sleeps,
where `t + j` is an observation point at which the flag is set. -/
lemma backoffWait_cancel_observed (cancel : Nat → Bool)
    (hmono : ∀ i i', i ≤ i' → cancel i = true → cancel i' = true) :
    ∀ k t j, j < k → cancel (t + j) = true →
      (backoffWait cancel t k).cancelled = true ∧ (backoffWait cancel t k).slept ≤ j := by
  intro k
  induction k with
  | zero => intro t j hj _; omega
  | succ n ih =>
    intro t j hj hc
    by_cases h : cancel t = true
    · simp [backoffWait, h]
    · obtain ⟨j', rfl⟩ : ∃ j', j = j' + 1 := by
        cases j with
        | zero => exact absurd (by simpa using hc) h
        | succ m => exact ⟨m, rfl⟩
      have hc' : cancel (t + 1 + j') = true := by
        have harr : t + (j' + 1) = t + 1 + j' := by omega
        rwa [harr] at hc
      have hih := ih (t + 1) j' (by omega) hc'
      have e1 : backoffWait cancel t (n + 1) =
          ⟨(backoffWait cancel (t + 1) n).cancelled,
           (backoffWait cancel (t + 1) n).slept + 1,
           (backoffWait cancel (t + 1) n).next⟩ := by
        simp [backoffWait, h]
      rw [e1]
      exact ⟨hih.1, Nat.succ_le_succ hih.2⟩

/-- The retry loop performs at most `fuel` download attempts. -/
lemma runAux_attempts_le (attempts : Nat → Option WErr) (cancel : Nat → Bool)
    (mR rD : Nat) : ∀ fuel a t,
    (runAux attempts cancel mR rD fuel a t).attemptsMade ≤ fuel := by
  intro fuel
  induction fuel with
  | zero => intro a t; simp [runAux]
  | succ n ih =>
    intro a t
    simp only [runAux]
    cases attempts a with
    | none => simp
    | some e =>
      by_cases h1 : caughtNonRetryable e
      · simp [h1]
      · by_cases h2 : isKeyboardInterrupt e
        · simp [h1, h2]
        · by_cases h3 : cancel t
          · simp [h1, h2, h3]
          · by_cases h4 : a < mR
            · by_cases h5 : (backoffWait cancel (t + 1) (rD * 2 ^ a)).cancelled
              · simp [h1, h2, h3, h4, h5]
              · simp only [h1, h2, h3, h4, h5, Bool.false_eq_true, if_false, if_true,
                  if_neg, ite_true, ite_false]
                have hle := ih (a + 1) (backoffWait cancel (t + 1) (rD * 2 ^ a)).next
                simp [h1, h2, h3, h4, h5]
                omega
            · simp [h1, h2, h3, h4]

/-- When the cancel flag never fires and every attempt raises an error that
falls to the generic handler, the retry loop runs all remaining attempts,
waits `retry_delay * 2 ^ n` seconds between attempts `n` and `n + 1`, and
finally emits `failed` with the last error. -/
lemma runAux_allFail (e : WErr) (he1 : caughtNonRetryable e = false)
    (he2 : isKeyboardInterrupt e = false) (mR rD : Nat) :
    ∀ fuel a t, a + fuel = mR + 1 → 1 ≤ fuel →
      runAux (fun _ => some e) (fun _ => false) mR rD fuel a t =
        ⟨some (.failed e), fuel,
         (((List.range' a (mR - a)).map fun n => rD * 2 ^ n).sum),
         ((List.range' a (mR - a)).map fun n => rD * 2 ^ n)⟩ := by
  intro fuel
  induction fuel with
  | zero => intro a t h1 h2; omega
  | succ n ih =>
    intro a t h1 _
    by_cases h : a < mR
    · have hn1 : 1 ≤ n := by omega
      have hw := backoffWait_no_cancel (rD * 2 ^ a) (t + 1)
      have hrec := ih (a + 1) (t + 1 + rD * 2 ^ a) (by omega) hn1
      have hrange : List.range' a (mR - a) = a :: List.range' (a + 1) (mR - (a + 1)) := by
        have h' : mR - a = (mR - (a + 1)) + 1 := by omega
        rw [h', List.range'_succ]
      simp only [runAux, he1, he2, Bool.false_eq_true, if_false, if_pos h, hw, hrange]
      simp [hrec]
    · have ha : a = mR := by omega
      have hn0 : n = 0 := by omega
      subst ha hn0
      simp [runAux, he1, he2]

/-- C5 (confirmed): the worker's retry loop (worker.py lines 86-142)
performs at most `max_retries + 1` attempts in total; with no cancellation
and every attempt failing retryably, the wait before attempt `n + 1` is
exactly `retry_delay * 2 ^ n` seconds and `failed` fires only after the last
attempt; the wait proceeds in one-second sleeps, and a monotone cancel flag
set at an observation point of the wait aborts the run silently with at most
one further sleep, as exercised on the run level by the last clause. -/
theorem c5_retry_backoff_exact (mR rD : Nat) :
    (∀ attempts cancel, (run attempts cancel mR rD).attemptsMade ≤ mR + 1) ∧
    (∀ msg, run (fun _ => some (.other msg)) (fun _ => false) mR rD =
      ⟨some (.failed (.other msg)), mR + 1,
       (((List.range mR).map fun n => rD * 2 ^ n).sum),
       ((List.range mR).map fun n => rD * 2 ^ n)⟩) ∧
    (∀ attempts t fuel a e, attempts a = some e → caughtNonRetryable e = false →
      isKeyboardInterrupt e = false → a < mR →
      (runAux attempts (fun _ => false) mR rD (fuel + 1) a t).gaps.headD 0 = rD * 2 ^ a) ∧
    (∀ cancel t k j, (∀ i i', i ≤ i' → cancel i = true → cancel i' = true) →
      j < k → cancel (t + j) = true →
      (backoffWait cancel t k).cancelled = true ∧ (backoffWait cancel t k).slept ≤ j) ∧
    (∀ j msg, 0 < mR → j < rD →
      (run (fun _ => some (.other msg)) (fun t => decide (j + 1 ≤ t)) mR rD).emit = none ∧
      (run (fun _ => some (.other msg)) (fun t => decide (j + 1 ≤ t)) mR rD).totalSleep ≤ j) := by
  refine ⟨?_, ?_, ?_, ?_, ?_⟩
  · intro attempts cancel
    exact runAux_attempts_le attempts cancel mR rD (mR + 1) 0 0
  · intro msg
    have h := runAux_allFail (.other msg) rfl rfl mR rD (mR + 1) 0 0 (by omega) (by omega)
    unfold run
    rw [h]
    simp [List.range_eq_range']
  · intro attempts t fuel a e ha he1 he2 haR
    have hw := backoffWait_no_cancel (rD * 2 ^ a) (t + 1)
    simp only [runAux, ha, he1, he2, Bool.false_eq_true, if_false, if_pos haR, hw]
    simp
  · intro cancel t k j hmono hj hc
    exact backoffWait_cancel_observed cancel hmono k t j hj hc
  · intro j msg hmR hj
    have hmono : ∀ i i', i ≤ i' → (decide (j + 1 ≤ i) : Bool) = true →
        (decide (j + 1 ≤ i') : Bool) = true := by
      intro i i' hii hdec
      simp only [decide_eq_true_eq] at hdec ⊢
      omega
    have hw := backoffWait_cancel_observed (fun t => decide (j + 1 ≤ t)) hmono
      rD 1 j hj (by simp only [decide_eq_true_eq]; omega)
    have hc0 : (decide (j + 1 ≤ 0) : Bool) = false := by simp
    obtain ⟨m, rfl⟩ : ∃ m, mR = m + 1 := ⟨mR - 1, by omega⟩
    have hrun : run (fun _ => some (.other msg)) (fun t => decide (j + 1 ≤ t)) (m + 1) rD =
        ⟨none, 1, (backoffWait (fun t => decide (j + 1 ≤ t)) 1 rD).slept, []⟩ := by
      unfold run
      simp only [runAux, caughtNonRetryable, isKeyboardInterrupt, hc0, Bool.false_eq_true,
        if_false, Nat.zero_lt_succ, if_true, pow_zero, mul_one, Nat.zero_add]
      simp [hw.1]
    rw [hrun]
    exact ⟨rfl, hw.2⟩

/-- Closed witness for `c5_retry_backoff_exact` at concrete inputs. -/
theorem c5_retry_backoff_exact_witness :
    (run (fun _ => some (.other "net")) (fun t => decide (1 + 1 ≤ t)) 2 3).emit = none ∧
    (run (fun _ => some (.other "net")) (fun t => decide (1 + 1 ≤ t)) 2 3).totalSleep ≤ 1 ∧
    (runAux (fun _ => some (.other "net")) (fun _ => false) 2 3 2 1 0).gaps.headD 0 = 6 ∧
    run (fun _ => some (.other "net")) (fun _ => false) 2 3 =
      ⟨some (.failed (.other "net")), 3, 9, [3, 6]⟩ := by
  have h := c5_retry_backoff_exact 2 3
  have h4 := h.2.2.2.2 1 "net" (by decide) (by decide)
  have h3 := h.2.2.1 (fun _ => some (.other "net")) 0 1 1 (.other "net") rfl rfl rfl (by decide)
  refine ⟨h4.1, h4.2, ?_, ?_⟩
  · rw [h3]
    decide
  · rw [h.2.1 "net"]
    rfl

/-- C1 counterexample: a `RepositoryNotFoundError` is *not* treated as
non-retryable by `DownloadWorker.run` — it falls to the generic handler and
is retried; with `max_retries = 3` the worker performs four attempts and
emits `failed` only after exhausting them, refuting "a NotFound error is
never retried". -/
theorem c1_notfound_retried_counterexample :
    (run (fun _ => some .repoNotFound) (fun _ => false) 3 1).attemptsMade = 4 ∧
    (run (fun _ => some .repoNotFound) (fun _ => false) 3 1).emit =
      some (.failed .repoNotFound) ∧
    caughtNonRetryable .repoNotFound = false := by decide

/-- C1 (corrected): the non-retryable `except` tuple of `DownloadWorker.run`
covers exactly `InsufficientSpaceError`, `AuthenticationError` and
`GatedModelError`: any such error makes the worker emit `failed` at once,
with no further attempt and no sleep.  A `RepositoryNotFoundError` is not in
the tuple: it falls to the generic handler and is retried like any other
error, so with retries remaining the worker performs all
`max_retries + 1` attempts on a persistent NotFound error. -/
theorem c1_nonretryable_tuple (attempts : Nat → Option WErr) (cancel : Nat → Bool)
    (mR rD fuel a t : Nat) (e : WErr) :
    (attempts a = some e → caughtNonRetryable e = true →
      runAux attempts cancel mR rD (fuel + 1) a t = ⟨some (.failed e), 1, 0, []⟩) ∧
    (0 < mR →
      (run (fun _ => some .repoNotFound) (fun _ => false) mR rD).attemptsMade = mR + 1) := by
  constructor
  · intro h1 h2
    simp [runAux, h1, h2]
  · intro hmR
    have h := runAux_allFail .repoNotFound rfl rfl mR rD (mR + 1) 0 0 (by omega) (by omega)
    unfold run
    rw [h]

/-- Closed witness for `c1_nonretryable_tuple` at concrete inputs. -/
theorem c1_nonretryable_tuple_witness :
    runAux (fun _ => some WErr.insufficientSpace) (fun _ => false) 3 1 4 0 0 =
      ⟨some (.failed .insufficientSpace), 1, 0, []⟩ ∧
    (run (fun _ => some .repoNotFound) (fun _ => false) 3 1).attemptsMade = 4 := by
  have h := c1_nonretryable_tuple (fun _ => some WErr.insufficientSpace) (fun _ => false)
    3 1 3 0 0 .insufficientSpace
  exact ⟨h.1 rfl rfl, h.2 (by decide)⟩

/-- C2 counterexample: with the cancel flag set for the entire execution, an
`InsufficientSpaceError` on the first attempt still makes
`DownloadWorker.run` emit `failed` — the non-retryable handler (worker.py
lines 106-110) never consults the cancel flag, refuting "cancellation never
surfaces as a failure". -/
theorem c2_cancel_failed_counterexample :
    (run (fun _ => some .insufficientSpace) (fun _ => true) 3 1).emit =
      some (.failed .insufficientSpace) := by decide

/-- C2 (corrected): with the cancel flag set, `DownloadWorker.run` can emit
`failed` only from the non-retryable handler: every `failed` emission under
a permanently-set cancel flag carries an error from the tuple
`(InsufficientSpaceError, AuthenticationError, GatedModelError)`, and any
error outside that tuple (other than `KeyboardInterrupt`) leads to a silent
cancelled exit because the generic handler checks the flag first. -/
theorem c2_cancel_wins_only_generic (attempts : Nat → Option WErr) (mR rD : Nat) :
    (∀ e, (run attempts (fun _ => true) mR rD).emit = some (.failed e) →
      caughtNonRetryable e = true) ∧
    (∀ e, caughtNonRetryable e = false → isKeyboardInterrupt e = false →
      (run (fun _ => some e) (fun _ => true) mR rD).emit = none) := by
  constructor
  · intro e he
    unfold run at he
    simp only [runAux] at he
    cases h0 : attempts 0 with
    | none => rw [h0] at he; simp at he
    | some e' =>
      rw [h0] at he
      by_cases h1 : caughtNonRetryable e'
      · simp only [h1, if_true] at he
        simp only [Option.some.injEq, Emit.failed.injEq] at he
        rw [← he]
        exact h1
      · by_cases h2 : isKeyboardInterrupt e'
        · simp [h1, h2] at he
        · simp [h1, h2] at he
  · intro e h1 h2
    unfold run
    simp [runAux, h1, h2]

/-- Closed witness for `c2_cancel_wins_only_generic` at concrete inputs. -/
theorem c2_cancel_wins_only_generic_witness :
    caughtNonRetryable .insufficientSpace = true ∧
    (run (fun _ => some (.other "reset")) (fun _ => true) 3 1).emit = none := by
  have h := c2_cancel_wins_only_generic (fun _ => some WErr.insufficientSpace) 3 1
  refine ⟨h.1 .insufficientSpace (by decide), ?_⟩
  exact (c2_cancel_wins_only_generic (fun _ => some (.other "reset")) 3 1).2
    (.other "reset") rfl rfl

end Worker

namespace Store

/-- Task status values of the downloads table (`core/models.py`,
database.py line 32). -/
inductive Status where
  | pending
  | queued
  | downloading
  | paused
  | completed
  | failed
  | cancelled
  deriving DecidableEq, Repr

/-- The claim-relevant projection of one row of the downloads table
(database.py lines 24-51). -/
structure Row where
  id : Nat
  status : Status
  priority : Int
  deriving DecidableEq, Repr

/-- The next autoincrement id: one more than the largest id present. -/
def nextId (db : List Row) : Nat := (db.map Row.id).foldr max 0 + 1

/-- Model of `Database.add_download` (database.py lines 205-211): inserts a row with
the supplied fields verbatim and returns the assigned id. -/
def addDownload (db : List Row) (status : Status) (priority : Int) :
    List Row × Nat :=
  (db ++ [⟨nextId db, status, priority⟩], nextId db)

/-- Model of `Database.update_download` (database.py lines 239-243): applies the
update to every row matching the id — with no guard on the row's current
status — and reports whether any row matched. -/
def updateDownload (db : List Row) (downloadId : Nat) (patch : Row → Row) :
    List Row × Bool :=
  (db.map fun r => if r.id = downloadId then patch r else r,
   db.any fun r => r.id == downloadId)

/-- Patch for the `status=...` keyword argument of `update_download`. -/
def setStatus (s : Status) (r : Row) : Row := { r with status := s }

/-- Patch for the `priority=...` keyword argument of `update_download`. -/
def setPriorityField (p : Int) (r : Row) : Row := { r with priority := p }

/-- The terminal statuses named by the specification. -/
def isTerminal : Status → Bool
  | .completed => true
  | .failed => true
  | .cancelled => true
  | _ => false

/-- The WHERE clause of `Database.get_pending_downloads` (database.py lines
232-234): `status IN ("pending", "queued")`, in stored row order. -/
def pendingFilter (db : List Row) : List Row :=
  db.filter fun r => r.status == .pending || r.status == .queued

/-- Model of `Database.get_pending_downloads` (database.py lines 229-237): the query orders only
by `priority` — the query has no secondary sort key — so a list is a legal
query result exactly when it is a permutation of the filtered rows that is
non-decreasing in priority. -/
def isPendingResult (db res : List Row) : Prop :=
  res.Perm (pendingFilter db) ∧ res.Pairwise fun a b => a.priority ≤ b.priority

/-- The ordering asserted by the specification: ascending priority with ties
broken by ascending id. -/
def priorityIdLe (a b : Row) : Prop :=
  a.priority < b.priority ∨ (a.priority = b.priority ∧ a.id ≤ b.id)

/-- C8 counterexample: for a store holding two pending/queued rows with
equal priority and ids 1 and 2, the list putting id 2 first is a legal
result of the `ORDER BY priority` query but is not sorted by
(priority, id) — the query guarantees no id tie-break. -/
theorem c8_tiebreak_counterexample :
    isPendingResult
      [⟨1, .queued, 5⟩, ⟨2, .pending, 5⟩]
      [⟨2, .pending, 5⟩, ⟨1, .queued, 5⟩] ∧
    ¬ ([⟨2, .pending, 5⟩, ⟨1, .queued, 5⟩] : List Row).Pairwise priorityIdLe := by
  refine ⟨⟨?_, ?_⟩, ?_⟩
  · have h : pendingFilter [⟨1, .queued, 5⟩, ⟨2, .pending, 5⟩] =
        [⟨1, .queued, 5⟩, ⟨2, .pending, 5⟩] := rfl
    rw [h]
    exact List.Perm.swap _ _ _
  · simp [List.pairwise_cons]
  · intro h
    have h1 := (List.pairwise_cons.mp h).1 (⟨1, .queued, 5⟩ : Row) (by simp)
    simp [priorityIdLe] at h1

/-- C8 (corrected): every legal result of `get_pending_downloads` contains
exactly the rows whose status is pending or queued and is sorted by
ascending priority, and when the pending rows carry pairwise-distinct
priorities the result is uniquely determined; but the query imposes no
tie-break between equal priorities, so the ascending-id tie order claimed by
the specification is not guaranteed. -/
theorem c8_pending_query_order (db res res' : List Row)
    (h : isPendingResult db res) (h' : isPendingResult db res') :
    (∀ r, r ∈ res ↔ r ∈ db ∧ (r.status = .pending ∨ r.status = .queued)) ∧
    res.Pairwise (fun a b => a.priority ≤ b.priority) ∧
    ((pendingFilter db).Pairwise (fun a b => a.priority ≠ b.priority) → res = res') := by
  have hsymm : ∀ {x y : Row}, x.priority ≠ y.priority → y.priority ≠ x.priority :=
    fun hab => hab.symm
  refine ⟨?_, h.2, ?_⟩
  · intro r
    rw [h.1.mem_iff]
    simp [pendingFilter, List.mem_filter]
  · intro hnd
    have hne : res.Pairwise (fun a b => a.priority ≠ b.priority) :=
      (h.1.pairwise_iff hsymm).mpr hnd
    have hne' : res'.Pairwise (fun a b => a.priority ≠ b.priority) :=
      (h'.1.pairwise_iff hsymm).mpr hnd
    have hlt : res.Pairwise (fun a b => a.priority < b.priority) :=
      (h.2.and hne).imp fun hab => lt_of_le_of_ne hab.1 hab.2
    have hlt' : res'.Pairwise (fun a b => a.priority < b.priority) :=
      (h'.2.and hne').imp fun hab => lt_of_le_of_ne hab.1 hab.2
    have hperm : res.Perm res' := h.1.trans h'.1.symm
    haveI : IsAntisymm Row (fun a b => a.priority < b.priority) :=
      ⟨fun a b h1 h2 => absurd h1 (not_lt.mpr (le_of_lt h2))⟩
    exact List.eq_of_perm_of_sorted hperm hlt hlt'

/-- Closed witness for `c8_pending_query_order` at a concrete input. -/
theorem c8_pending_query_order_witness :
    (⟨1, .queued, 7⟩ : Row) ∈ ([⟨2, .pending, 3⟩, ⟨1, .queued, 7⟩] : List Row) ↔
    ((⟨1, .queued, 7⟩ : Row) ∈ ([⟨1, .queued, 7⟩, ⟨2, .pending, 3⟩] : List Row) ∧
      ((⟨1, .queued, 7⟩ : Row).status = .pending ∨ (⟨1, .queued, 7⟩ : Row).status = .queued)) := by
  have hres : isPendingResult [⟨1, .queued, 7⟩, ⟨2, .pending, 3⟩]
      [⟨2, .pending, 3⟩, ⟨1, .queued, 7⟩] := by
    constructor
    · have h : pendingFilter [⟨1, .queued, 7⟩, ⟨2, .pending, 3⟩] =
          [⟨1, .queued, 7⟩, ⟨2, .pending, 3⟩] := rfl
      rw [h]
      exact List.Perm.swap _ _ _
    · simp [List.pairwise_cons]
  exact (c8_pending_query_order _ _ _ hres hres).1 _

end Store

namespace Manager

/-- Qt signals and event-bus events emitted by the manager operations
(manager.py lines 160-317). -/
inductive MEvent where
  | queueChanged
  | downloadQueued (taskId : Nat)
  | downloadPaused (taskId : Nat)
  | downloadResumed (taskId : Nat)
  | taskCancelled (taskId : Nat)
  | downloadCancelled (taskId : Nat)
  deriving DecidableEq, Repr

/-- The claim-relevant state of a `DownloadManager` (manager.py lines
61-64): worker map keys, active task map keys, paused task map keys, the
priority queue contents as (priority, task id) pairs, and the store. -/
structure MState where
  workers : List Nat
  activeTasks : List Nat
  pausedTasks : List Nat
  queue : List (Int × Nat)
  db : List Store.Row
  deriving DecidableEq, Repr

/-- Priority of the stored row with the given id (0 if absent); used to
model the snapshot priority a paused task is re-enqueued with. -/
def prioOf (db : List Store.Row) (taskId : Nat) : Int :=
  ((db.filter fun r => r.id == taskId).map Store.Row.priority).headD 0

/-- Model of `DownloadManager.add` (manager.py lines 160-217): persists a new row
with status `queued` and the priority exactly as submitted — the method
performs no clamping — enqueues `(priority, task)`, and emits
`queue_changed` and `DOWNLOAD_QUEUED`. -/
def add (st : MState) (priority : Int) : Nat × MState × List MEvent :=
  let r := Store.addDownload st.db .queued priority
  (r.2,
   { st with db := r.1, queue := st.queue ++ [(priority, r.2)] },
   [.queueChanged, .downloadQueued r.2])

/-- Model of `DownloadManager.pause` (manager.py lines 247-265): only an id present
in the worker map can be paused; otherwise `False` with no effect. -/
def pause (st : MState) (taskId : Nat) : Bool × MState × List MEvent :=
  if taskId ∈ st.workers then
    (true,
     { st with
        pausedTasks :=
          if taskId ∈ st.activeTasks then st.pausedTasks ++ [taskId] else st.pausedTasks,
        db := (Store.updateDownload st.db taskId (Store.setStatus .paused)).1 },
     [.downloadPaused taskId])
  else
    (false, st, [])

/-- Model of `DownloadManager.resume` (manager.py lines 267-284): only an id present
in the paused map can be resumed; otherwise `False` with no effect. -/
def resume (st : MState) (taskId : Nat) : Bool × MState × List MEvent :=
  if taskId ∈ st.pausedTasks then
    (true,
     { st with
        pausedTasks := st.pausedTasks.filter fun i => i ≠ taskId,
        queue := st.queue ++ [(prioOf st.db taskId, taskId)],
        db := (Store.updateDownload st.db taskId (Store.setStatus .queued)).1 },
     [.queueChanged, .downloadResumed taskId])
  else
    (false, st, [])

/-- Model of `DownloadManager.cancel` (manager.py lines 286-311): drops the id from
the worker, active and paused maps if present, unconditionally writes status
`cancelled` to the store, emits `task_cancelled`, `queue_changed` and
`DOWNLOAD_CANCELLED`, and returns `True` for every id. -/
def cancel (st : MState) (taskId : Nat) : Bool × MState × List MEvent :=
  (true,
   { st with
      workers := st.workers.filter fun i => i ≠ taskId,
      activeTasks := st.activeTasks.filter fun i => i ≠ taskId,
      pausedTasks := st.pausedTasks.filter fun i => i ≠ taskId,
      db := (Store.updateDownload st.db taskId (Store.setStatus .cancelled)).1 },
   [.taskCancelled taskId, .queueChanged, .downloadCancelled taskId])

/-- Model of `DownloadManager.set_priority` (manager.py lines 313-317): clamps the
priority with `max(1, min(10, priority))` before persisting. -/
def setPriority (st : MState) (taskId : Nat) (priority : Int) : Bool × MState :=
  (true,
   { st with
      db := (Store.updateDownload st.db taskId
        (Store.setPriorityField (max 1 (min 10 priority)))).1 })

/-- C3 counterexample: `DownloadManager.add` with priority 0 persists 0 to
the store and enqueues 0 — not the claimed clamped value 1 — and priority 11
is likewise persisted as 11, not 10. -/
theorem c3_priority_not_clamped_counterexample :
    ((add ⟨[], [], [], [], []⟩ 0).2.1.db = [⟨1, .queued, 0⟩]) ∧
    ((0 : Int) ≠ 1) ∧
    ((add ⟨[], [], [], [], []⟩ 11).2.1.db = [⟨1, .queued, 11⟩]) ∧
    ((11 : Int) ≠ 10) := by decide

/-- C3 (corrected): `DownloadManager.add` persists and enqueues the
submitted priority unmodified — no clamping happens on the add path — while
`DownloadManager.set_priority` is the operation that clamps into [1, 10]. -/
theorem c3_add_unclamped_setPriority_clamps (st : MState) (p : Int) (taskId : Nat) :
    ((add st p).2.1.db = st.db ++ [⟨Store.nextId st.db, .queued, p⟩]) ∧
    ((add st p).2.1.queue = st.queue ++ [(p, Store.nextId st.db)]) ∧
    (∀ r, r ∈ (setPriority st taskId p).2.db → r.id = taskId →
      r.priority = max 1 (min 10 p)) := by
  refine ⟨rfl, rfl, ?_⟩
  intro r hr hid
  simp only [setPriority, Store.updateDownload, List.mem_map] at hr
  obtain ⟨r0, _, rfl⟩ := hr
  by_cases h : r0.id = taskId
  · simp [h, Store.setPriorityField]
  · rw [if_neg h] at hid ⊢
    exact absurd hid h

/-- Closed witness for `c3_add_unclamped_setPriority_clamps`. -/
theorem c3_add_unclamped_setPriority_clamps_witness :
    ((add ⟨[], [], [], [], []⟩ 0).2.1.db = [⟨1, .queued, 0⟩]) ∧
    ((setPriority ⟨[], [], [], [], [⟨1, .queued, 5⟩]⟩ 1 0).2.db.headD ⟨0, .queued, 0⟩).priority = 1 := by
  have h := c3_add_unclamped_setPriority_clamps (⟨[], [], [], [], []⟩ : MState) 0 1
  have h2 := c3_add_unclamped_setPriority_clamps (⟨[], [], [], [], [⟨1, .queued, 5⟩]⟩ : MState) 0 1
  refine ⟨h.1, ?_⟩
  have hm := h2.2.2 ((setPriority ⟨[], [], [], [], [⟨1, .queued, 5⟩]⟩ 1 0).2.db.headD ⟨0, .queued, 0⟩)
    (by decide) (by decide)
  rw [hm]
  decide

/-- C4 counterexample: a task stored with terminal status `completed` is
moved to `cancelled` by `DownloadManager.cancel` — the store applies the
update with no terminal-state guard, so terminal states are not absorbing. -/
theorem c4_terminal_not_absorbing_counterexample :
    ((cancel ⟨[], [], [], [], [⟨1, .completed, 5⟩]⟩ 1).2.1.db = [⟨1, .cancelled, 5⟩]) ∧
    Store.Status.completed ≠ Store.Status.cancelled := by decide

/-- C4 (corrected): `Database.update_download` applies any status update to
every row matching the id regardless of the row's current status, and
`DownloadManager.cancel` uses it to overwrite even terminal rows with
`cancelled`; so terminal states are not absorbing in the store. -/
theorem c4_terminal_states_overwritable (db : List Store.Row) (downloadId : Nat)
    (s : Store.Status) (st : MState) (r : Store.Row) :
    (∀ r', r' ∈ (Store.updateDownload db downloadId (Store.setStatus s)).1 →
      r'.id = downloadId → r'.status = s) ∧
    (r ∈ st.db → { r with status := Store.Status.cancelled } ∈ (cancel st r.id).2.1.db) ∧
    (Store.isTerminal .completed = true ∧ Store.isTerminal .failed = true ∧
      Store.Status.cancelled ≠ Store.Status.completed ∧
      Store.Status.cancelled ≠ Store.Status.failed) := by
  refine ⟨?_, ?_, by decide⟩
  · intro r' hr' hid
    simp only [Store.updateDownload, List.mem_map] at hr'
    obtain ⟨r0, _, rfl⟩ := hr'
    by_cases h : r0.id = downloadId
    · simp [h, Store.setStatus]
    · rw [if_neg h] at hid ⊢
      exact absurd hid h
  · intro hr
    simp only [cancel, Store.updateDownload, List.mem_map]
    refine ⟨r, hr, ?_⟩
    simp [Store.setStatus]

/-- Closed witness for `c4_terminal_states_overwritable`. -/
theorem c4_terminal_states_overwritable_witness :
    (⟨1, Store.Status.cancelled, 5⟩ : Store.Row) ∈
      (cancel ⟨[], [], [], [], [⟨1, .completed, 5⟩]⟩ 1).2.1.db := by
  have h := c4_terminal_states_overwritable [] 1 Store.Status.cancelled
    (⟨[], [], [], [], [⟨1, .completed, 5⟩]⟩ : MState) ⟨1, .completed, 5⟩
  exact h.2.1 (by decide)

/-- C9 (confirmed): `DownloadManager.cancel` returns `True` for every id —
present or not in any map or in the store — unconditionally writes status
`cancelled` for that id and emits `task_cancelled`, `queue_changed` and
`DOWNLOAD_CANCELLED`; whereas `pause` returns `False` (with no effect) when
the id is not in the worker map and `resume` returns `False` (with no
effect) when the id is not in the paused map. -/
theorem c9_cancel_unconditional (st : MState) (taskId : Nat) :
    (cancel st taskId).1 = true ∧
    (∀ r, r ∈ (cancel st taskId).2.1.db → r.id = taskId →
      r.status = Store.Status.cancelled) ∧
    (cancel st taskId).2.2 =
      [.taskCancelled taskId, .queueChanged, .downloadCancelled taskId] ∧
    (taskId ∉ st.workers →
      (pause st taskId).1 = false ∧ (pause st taskId).2.1 = st) ∧
    (taskId ∉ st.pausedTasks →
      (resume st taskId).1 = false ∧ (resume st taskId).2.1 = st) := by
  refine ⟨rfl, ?_, rfl, ?_, ?_⟩
  · intro r hr hid
    simp only [cancel, Store.updateDownload, List.mem_map] at hr
    obtain ⟨r0, _, rfl⟩ := hr
    by_cases h : r0.id = taskId
    · simp [h, Store.setStatus]
    · rw [if_neg h] at hid ⊢
      exact absurd hid h
  · intro h
    simp [pause, h]
  · intro h
    simp [resume, h]

/-- Closed witness for `c9_cancel_unconditional` at a concrete input. -/
theorem c9_cancel_unconditional_witness :
    (cancel ⟨[], [], [], [], []⟩ 7).1 = true ∧
    (pause ⟨[], [], [], [], []⟩ 7).1 = false ∧
    (resume ⟨[], [], [], [], []⟩ 7).1 = false := by
  have h := c9_cancel_unconditional (⟨[], [], [], [], []⟩ : MState) 7
  exact ⟨h.1, (h.2.2.2.1 (by decide)).1, (h.2.2.2.2 (by decide)).1⟩

end Manager

namespace Resume

/-- The sidecar record for one task (worker.py lines 453-473; the spec's
`{completed_files, downloaded_bytes, current_file, files_completed}`). -/
structure ResumeState where
  completedFiles : List String
  downloadedBytes : Nat
  currentFile : Option String
  filesCompleted : Nat
  deriving DecidableEq, Repr

/-- File-system operations a writer can perform, as an observable trace. -/
inductive FsOp where
  | write (path : String) (content : String)
  | rename (src : String) (dst : String)
  deriving DecidableEq, Repr

/-- Sidecar path `resume_states/task_<id>.json` (worker.py lines 30 and 71). -/
def resumeStatePath (taskId : Nat) : String :=
  "resume_states/task_" ++ toString taskId ++ ".json"

/-- Serialization of the sidecar record, standing for `json.dump`. -/
def encodeResumeState (st : ResumeState) : String :=
  "\x7b\"completed_files\": " ++ toString st.completedFiles ++
  ", \"downloaded_bytes\": " ++ toString st.downloadedBytes ++
  ", \"current_file\": " ++
    (match st.currentFile with
     | some f => "\"" ++ f ++ "\""
     | none => "null") ++
  ", \"files_completed\": " ++ toString st.filesCompleted ++ "\x7d"

/-- Trace of `DownloadWorker._save_resume_state` (worker.py lines 463-473): updates
the in-memory dict with the worker's counters and then performs a single
`open(path, "w")` + `json.dump` directly on the final sidecar path — no
temporary file and no rename appear in the trace. -/
def saveResumeStateOps (taskId : Nat) (prev : ResumeState) (downloadedBytes : Nat)
    (currentFile : Option String) (filesCompleted : Nat) : List FsOp :=
  let st : ResumeState :=
    { prev with
        downloadedBytes := downloadedBytes,
        currentFile := currentFile,
        filesCompleted := filesCompleted }
  [FsOp.write (resumeStatePath taskId) (encodeResumeState st)]

/-- Spec-side predicate, following the specification's words for the
refinement comparison: a trace is write-temp-then-rename atomic when it
first writes the full content to a distinct temporary sibling file and then
renames that file onto the final path. -/
def isAtomicTempRename (ops : List FsOp) (finalPath : String) : Bool :=
  match ops with
  | [FsOp.write tmp _, FsOp.rename src dst] =>
    src == tmp && dst == finalPath && tmp != finalPath
  | _ => false

/-- Model of `DownloadWorker._load_resume_state` (worker.py lines 453-461): a missing
sidecar file (`none`) or a file whose read or parse fails (`some none`)
yields the default empty state rather than an error. -/
def loadResumeState (file : Option (Option ResumeState)) : ResumeState :=
  match file with
  | some (some st) => st
  | _ => ⟨[], 0, none, 0⟩

/-- C7 counterexample: the trace of `_save_resume_state` for task 1 is a
single direct write to the final sidecar path, which the
write-temp-then-rename predicate rejects — the write is not atomic in the
claimed sense. -/
theorem c7_not_temp_rename_counterexample :
    isAtomicTempRename
      (saveResumeStateOps 1 ⟨[], 0, none, 0⟩ 42 (some "model.bin") 3)
      (resumeStatePath 1) = false := rfl

/-- C7 (corrected): every write of the resume sidecar is one direct
`open`-and-write of the serialized state onto the final path
`resume_states/task_<id>.json` — there is no temporary file and no rename,
so the write is not temp-then-rename atomic; on the read side, a missing or
unreadable sidecar file degrades to the default empty resume state instead
of raising. -/
theorem c7_sidecar_write_is_direct (taskId : Nat) (prev : ResumeState)
    (downloadedBytes : Nat) (currentFile : Option String) (filesCompleted : Nat) :
    (saveResumeStateOps taskId prev downloadedBytes currentFile filesCompleted =
      [FsOp.write (resumeStatePath taskId)
        (encodeResumeState
          { prev with
              downloadedBytes := downloadedBytes,
              currentFile := currentFile,
              filesCompleted := filesCompleted })]) ∧
    (isAtomicTempRename
      (saveResumeStateOps taskId prev downloadedBytes currentFile filesCompleted)
      (resumeStatePath taskId) = false) ∧
    loadResumeState (some none) = ⟨[], 0, none, 0⟩ ∧
    loadResumeState none = ⟨[], 0, none, 0⟩ :=
  ⟨rfl, rfl, rfl, rfl⟩

end Resume

end HFSuite
